import Mathlib

/-!
Shallow embedding of the EcoBridge native economy core (Rust) in Lean 4.

Conventions used throughout:
* Rust `i64` / `i32` integers are modelled as `ℤ`; where the source relies on
  saturating arithmetic or saturating casts, those are modelled explicitly.
* Rust `f64` values are modelled as real numbers (`ℝ`).  IEEE special values
  (NaN, infinities) have no counterpart in `ℝ`; consequently the source's
  `is_finite`-style guards are identically true in this model and are noted
  by comments at the points where they occur in the source.
* `f64::mul_add` is exact over `ℝ`, so it is modelled as `a * b + c`.
* Source files referenced: `economy/summation.rs`, `economy/environment.rs`,
  `economy/control.rs`, `economy/pricing.rs`, `security/regulator.rs`,
  `models.rs` of `ecobridge-rust`.
-/

namespace EcoBridge

open scoped Classical

/-! ### Machine-integer primitives -/

/-- Smallest `i64` value, `-(2^63)`. -/
def I64_MIN : ℤ := -9223372036854775808

/-- Largest `i64` value, `2^63 - 1`. -/
def I64_MAX : ℤ := 9223372036854775807

/-- Round a real toward zero: the rounding used by Rust's float-to-integer
`as` casts. -/
noncomputable def rtz (x : ℝ) : ℤ := if 0 ≤ x then ⌊x⌋ else -⌊-x⌋

/-- Rust `expr as i64` applied to an `f64`: round toward zero, saturating at
the `i64` range ends.  (The NaN-maps-to-0 case has no counterpart in `ℝ`.) -/
noncomputable def i64ofReal (x : ℝ) : ℤ := min (max (rtz x) I64_MIN) I64_MAX

/-- Rust `i64::saturating_sub`. -/
def i64SatSub (a b : ℤ) : ℤ := min (max (a - b) I64_MIN) I64_MAX

/-- Rust `f64::clamp(self, lo, hi)` (defined for `lo ≤ hi`, which holds at
every call site embedded here). -/
noncomputable def fclamp (x lo hi : ℝ) : ℝ := min (max x lo) hi

/-! ### Data model (`models.rs`), minus FFI padding fields -/

/-- `models.rs` `HistoryRecord`: one historical trade snapshot. -/
structure HistoryRecord where
  timestamp : ℤ
  amount_micros : ℤ

instance : Inhabited HistoryRecord := ⟨⟨0, 0⟩⟩

/-- `models.rs` `PidState`: the PID controller state record. -/
structure PidState where
  kp : ℝ
  ki : ℝ
  kd : ℝ
  lambda : ℝ
  integral : ℝ
  prev_pv : ℝ
  filtered_d : ℝ
  integration_limit : ℝ
  is_saturated : ℤ

/-- `models.rs` `TradeContext`: pricing evaluation context. -/
structure TradeContext where
  base_price_micros : ℤ
  current_amount : ℤ
  inflation_rate : ℝ
  current_timestamp : ℤ
  play_time_seconds : ℤ
  timezone_offset : ℤ
  newbie_mask : ℤ
  market_heat : ℝ
  eco_saturation : ℝ

/-- `models.rs` `TransferContext`: transfer audit context. -/
structure TransferContext where
  amount_micros : ℤ
  sender_balance : ℤ
  receiver_balance : ℤ
  inflation_rate : ℝ
  item_base_limit : ℤ
  item_growth_rate : ℝ
  item_max_limit : ℤ
  sender_play_time : ℤ
  receiver_play_time : ℤ
  sender_activity_score : ℝ
  sender_velocity : ℝ

/-- `models.rs` `MarketConfig`: market pricing configuration. -/
structure MarketConfig where
  base_lambda : ℝ
  volatility_factor : ℝ
  seasonal_amplitude : ℝ
  weekend_multiplier : ℝ
  newbie_protection_rate : ℝ
  seasonal_weight : ℝ
  weekend_weight : ℝ
  newbie_weight : ℝ
  inflation_weight : ℝ

/-- `models.rs` `RegulatorConfig`: audit and taxation configuration. -/
structure RegulatorConfig where
  base_tax_rate : ℝ
  luxury_threshold : ℤ
  luxury_tax_rate : ℝ
  wealth_gap_tax_rate : ℝ
  poor_threshold : ℤ
  rich_threshold : ℤ
  warning_ratio : ℝ
  warning_min_amount : ℤ
  newbie_hours : ℝ
  veteran_hours : ℝ
  velocity_threshold : ℝ

/-- `models.rs` `TransferResult`: outcome of one transfer check. -/
structure TransferResult where
  final_tax_micros : ℤ
  is_blocked : ℤ
  warning_code : ℤ

/-! ### Summation engine (`economy/summation.rs`) -/

/-- `summation.rs` `MS_PER_DAY`. -/
noncomputable def MS_PER_DAY : ℝ := 86400000

/-- `summation.rs` `MAX_FUTURE_TOLERANCE` (milliseconds). -/
def MAX_FUTURE_TOLERANCE : ℤ := 60000

/-- `summation.rs` / `regulator.rs` / `pricing.rs` `MICROS_SCALE`. -/
noncomputable def MICROS_SCALE : ℝ := 1000000

/-- `summation.rs` `MAX_HISTORY_SIZE`. -/
def MAX_HISTORY_SIZE : ℕ := 500000

/-- `summation.rs` `PRUNE_TO_SIZE`. -/
def PRUNE_TO_SIZE : ℕ := 400000

/-- The history window is kept in non-decreasing timestamp order
(spec §3 ordering invariant for `HistoryRecord`). -/
def TimeSorted (l : List HistoryRecord) : Prop :=
  l.Pairwise fun a b => a.timestamp ≤ b.timestamp

/-- `summation.rs` `append_trade_to_memory`, modelled as a function from the
window to the new window: push the record, then if the length exceeds
`MAX_HISTORY_SIZE` drain `len - PRUNE_TO_SIZE` records from the front. -/
noncomputable def append_trade_to_memory (history : List HistoryRecord)
    (ts : ℤ) (amount : ℝ) : List HistoryRecord :=
  let pushed := history ++ [⟨ts, i64ofReal (amount * MICROS_SCALE)⟩]
  if MAX_HISTORY_SIZE < pushed.length then
    pushed.drop (pushed.length - PRUNE_TO_SIZE)
  else
    pushed

/-- `summation.rs` lines 114-120: the scalar per-record closure, with its
captured locals (`valid_future_limit`, `t_min`, `lambda`) made explicit
parameters. -/
noncomputable def compute_partial_term (valid_future_limit t_min : ℤ) (lambda : ℝ)
    (rec : HistoryRecord) : ℝ :=
  if valid_future_limit < rec.timestamp then 0
  else (rec.amount_micros : ℝ) *
    Real.exp ((i64SatSub rec.timestamp t_min : ℝ) * lambda)

/-- `summation.rs` `calculate_volume_in_memory` (scalar path; over `ℝ` the
AVX2 path of the source computes the same sum term by term).
`partition_point` over a list sorted by the predicate's split is the length
of the matching prefix, so the slice `&history[start_idx..]` is
`dropWhile`. -/
noncomputable def calculate_volume_in_memory (history : List HistoryRecord)
    (current_time : ℤ) (tau : ℝ) : ℝ :=
  if history = [] ∨ tau ≤ 0 then 0
  else
    let valid_future_limit := current_time + MAX_FUTURE_TOLERANCE
    let valid_past_limit := current_time - i64ofReal (tau * MS_PER_DAY * 10)
    let relevant_slice := history.dropWhile fun r =>
      decide (r.timestamp < valid_past_limit)
    if relevant_slice.isEmpty then 0
    else
      let t_min := relevant_slice.headI.timestamp
      let lambda := 1 / (tau * MS_PER_DAY)
      let base_multiplier := Real.exp (-((current_time - t_min : ℤ) : ℝ) * lambda)
      let partial_sum :=
        (relevant_slice.map (compute_partial_term valid_future_limit t_min lambda)).sum
      (partial_sum / MICROS_SCALE) * base_multiplier
      -- the `is_finite` degradation branch of the source is vacuous over ℝ

/-- `summation.rs` `query_neff_internal`: reads the hot window and delegates
to `calculate_volume_in_memory`. -/
noncomputable def query_neff_internal (history : List HistoryRecord)
    (current_ts : ℤ) (tau : ℝ) : ℝ :=
  calculate_volume_in_memory history current_ts tau

/-- One term of the specification-level windowed decayed-volume sum: zero
outside the window `[past, now + 60s]`, otherwise the record's amount decayed
by `exp(-(now - ts) / (tau·86400000))`. -/
noncomputable def window_term (current_time : ℤ) (tau past : ℝ)
    (r : HistoryRecord) : ℝ :=
  if past ≤ (r.timestamp : ℝ) ∧ r.timestamp ≤ current_time + MAX_FUTURE_TOLERANCE
  then (r.amount_micros : ℝ) *
    Real.exp (-((current_time - r.timestamp : ℤ) : ℝ) / (tau * MS_PER_DAY))
  else 0

/-- Windowed decayed-volume sum used to state the specification's claim about
`query`: sum, over the records whose timestamp is at least `past` and at most
`now` plus the 60-second future tolerance, of
`amount × exp(-(now - ts) / (tau·86400000))`, scaled back from micros. -/
noncomputable def volume_window_sum (history : List HistoryRecord)
    (current_time : ℤ) (tau : ℝ) (past : ℝ) : ℝ :=
  (history.map (window_term current_time tau past)).sum / MICROS_SCALE

/-- Claim C1's reading of the spec sentence: the lookback window is `tau`
days before `now` (plus the future tolerance). -/
noncomputable def spec_volume_tau_days (history : List HistoryRecord)
    (current_time : ℤ) (tau : ℝ) : ℝ :=
  volume_window_sum history current_time tau ((current_time : ℝ) - tau * MS_PER_DAY)

/-! ### Environmental factor engine (`economy/environment.rs`) -/

/-- `environment.rs` `SECONDS_PER_DAY`. -/
noncomputable def SECONDS_PER_DAY : ℝ := 86400

/-- `environment.rs` `SECONDS_PER_WEEK`. -/
noncomputable def SECONDS_PER_WEEK : ℝ := 604800

/-- `environment.rs` `SECONDS_PER_MONTH`. -/
noncomputable def SECONDS_PER_MONTH : ℝ := 2592000

namespace Environment

/-- `environment.rs` `sigmoid` (steepness 10). -/
noncomputable def sigmoid (x : ℝ) : ℝ := 1 / (1 + Real.exp (-x * 10))

end Environment

/-- Local-time seconds used by `calculate_epsilon_internal` (lines 39-41 of
`environment.rs`): UTC milliseconds over 1000 plus the timezone offset. -/
noncomputable def ts_sec_local (ctx : TradeContext) : ℝ :=
  (ctx.current_timestamp : ℝ) / 1000 + (ctx.timezone_offset : ℝ)

/-- `environment.rs` line 60: `(ts_sec_local / SECONDS_PER_DAY).floor() as i64`. -/
noncomputable def epsilon_day_index (ctx : TradeContext) : ℤ :=
  ⌊ts_sec_local ctx / SECONDS_PER_DAY⌋

/-- `environment.rs` line 61: `(day_index + 4).rem_euclid(7)`; the source
comment asserts the convention 0 = Monday, 6 = Sunday. -/
noncomputable def epsilon_day_of_week (ctx : TradeContext) : ℤ :=
  (epsilon_day_index ctx + 4).emod 7

/-- `environment.rs` line 62: the weekend sub-factor of epsilon. -/
noncomputable def epsilon_weekend_factor (ctx : TradeContext) (cfg : MarketConfig) : ℝ :=
  if 5 ≤ epsilon_day_of_week ctx then cfg.weekend_multiplier else 1

/-- Ground calendar truth used to judge claim C2: Unix epoch day 0
(1970-01-01) was a Thursday, so under the 0 = Monday, 6 = Sunday convention
of the source's own comment the true weekday of local day `d` is
`(d + 3) mod 7`; Saturday is 5 and Sunday is 6. -/
def true_weekday_monday0 (d : ℤ) : ℤ := (d + 3).emod 7

/-- `environment.rs` `calculate_epsilon_internal`. -/
noncomputable def calculate_epsilon_internal (ctx : TradeContext) (cfg : MarketConfig) : ℝ :=
  let safe_ln := fun f : ℝ => Real.log (max f 0.01)
  let day_wave := Real.sin (ts_sec_local ctx * 2 * Real.pi / SECONDS_PER_DAY)
  let week_wave := Real.sin (ts_sec_local ctx * 2 * Real.pi / SECONDS_PER_WEEK)
  let month_wave := Real.sin (ts_sec_local ctx * 2 * Real.pi / SECONDS_PER_MONTH)
  let seasonal_factor := 0.6 * day_wave + 0.3 * week_wave + 0.1 * month_wave
  let f_sea0 := 1 + cfg.seasonal_amplitude * seasonal_factor
  -- `(ctx.newbie_mask >> 1) & 1 == 1`: arithmetic shift right is floor
  -- division by 2, and `& 1` on two's complement is the Euclidean mod 2
  let f_sea := if (ctx.newbie_mask.fdiv 2).emod 2 = 1 then f_sea0 * 1.15 else f_sea0
  let f_wk := epsilon_weekend_factor ctx cfg
  let play_hours := (ctx.play_time_seconds : ℝ) / 3600
  let protection_decay := fclamp (1 - play_hours / 100) 0 1
  let f_nb := 1 - cfg.newbie_protection_rate * protection_decay
  let sigmoid_trigger := Environment.sigmoid (ctx.inflation_rate - 0.05)
  let f_inf := 1 + ctx.inflation_rate * 0.2 * sigmoid_trigger
  let log_eps :=
      cfg.seasonal_weight * safe_ln f_sea
    + cfg.weekend_weight * safe_ln f_wk
    + cfg.newbie_weight * safe_ln f_nb
    + cfg.inflation_weight * safe_ln f_inf
  let epsilon0 := Real.exp log_eps
  let epsilon1 :=
    if 1.001 < cfg.volatility_factor then 1 + (epsilon0 - 1) * cfg.volatility_factor
    else epsilon0
  fclamp epsilon1 0.1 10

/-! ### PID control module (`economy/control.rs`) -/

/-- `control.rs` `DEFAULT_INTEGRATION_LIMIT`. -/
noncomputable def DEFAULT_INTEGRATION_LIMIT : ℝ := 30

/-- `control.rs` `MAX_SAFE_DT`. -/
noncomputable def MAX_SAFE_DT : ℝ := 1

/-- `control.rs` `MIN_TIME_STEP`. -/
noncomputable def MIN_TIME_STEP : ℝ := 1e-6

/-- `control.rs` `OUTPUT_MIN_CLAMP`. -/
noncomputable def OUTPUT_MIN_CLAMP : ℝ := 0.5

/-- `control.rs` `OUTPUT_MAX_CLAMP`. -/
noncomputable def OUTPUT_MAX_CLAMP : ℝ := 5

/-- `control.rs` `OUTPUT_BASELINE`. -/
noncomputable def OUTPUT_BASELINE : ℝ := 1

/-- `control.rs` `INTEGRAL_DECAY`. -/
noncomputable def INTEGRAL_DECAY : ℝ := 0.99999

/-- `control.rs` `BACK_CALC_GAIN`. -/
noncomputable def BACK_CALC_GAIN : ℝ := 0.2

/-- `control.rs` `DERIVATIVE_FILTER_ALPHA`. -/
noncomputable def DERIVATIVE_FILTER_ALPHA : ℝ := 0.3

/-- `control.rs` `PANIC_THRESHOLD`. -/
noncomputable def PANIC_THRESHOLD : ℝ := 50

/-- `control.rs` `PANIC_DAMPING`. -/
noncomputable def PANIC_DAMPING : ℝ := 1.8

/-- `control.rs` `HEAT_SENSITIVITY`. -/
noncomputable def HEAT_SENSITIVITY : ℝ := 0.5

namespace Control

/-- `control.rs` `sigmoid` (plain logistic). -/
noncomputable def sigmoid (x : ℝ) : ℝ := 1 / (1 + Real.exp (-x))

end Control

/-- `control.rs` `compute_adaptive_gain`: heat-scheduled `(kp, ki)`. -/
noncomputable def compute_adaptive_gain (cfg : PidState) (heat : ℝ) : ℝ × ℝ :=
  let sensitivity := Real.tanh (heat * HEAT_SENSITIVITY)
  (cfg.kp * (1 + sensitivity), cfg.ki * (1 - sensitivity * 0.5))

/-- `control.rs` `compute_pid_adjustment_internal`, with the in-place state
mutation made explicit: returns the output together with the state record as
it stands after the call.  The `is_finite` parts of the input guard and the
final output fallback are identically true over `ℝ`, leaving `dt < 0` as the
guard's only live condition. -/
noncomputable def compute_pid_adjustment_internal (pid : PidState)
    (target_vel current_vel dt inflation market_heat : ℝ) : ℝ × PidState :=
  if dt < 0 then (OUTPUT_BASELINE, pid)
  else
    let error := target_vel - current_vel
    let dt_safe := fclamp dt 0 MAX_SAFE_DT
    let gains := compute_adaptive_gain pid market_heat
    let schedule_gamma := 1 + Control.sigmoid ((inflation - 0.05) * 20)
    let active_kp := gains.1 * schedule_gamma
    let active_ki := gains.2 * schedule_gamma
    let combined_leakage := (1 - fclamp pid.lambda 0 1) * INTEGRAL_DECAY
    let integral1 :=
      if pid.is_saturated ≠ 0 then
        pid.integral * combined_leakage + (error * BACK_CALC_GAIN) * dt_safe
      else
        pid.integral * combined_leakage + error * dt_safe
    let limit :=
      if 0 < pid.integration_limit then pid.integration_limit
      else DEFAULT_INTEGRATION_LIMIT
    let integral2 := fclamp integral1 (-limit) limit
    let delta_pv := current_vel - pid.prev_pv
    let raw_derivative := if MIN_TIME_STEP < dt_safe then delta_pv / dt_safe else 0
    let filtered_d :=
      DERIVATIVE_FILTER_ALPHA * raw_derivative
        + (1 - DERIVATIVE_FILTER_ALPHA) * pid.filtered_d
    let d_multiplier := if PANIC_THRESHOLD < |filtered_d| then PANIC_DAMPING else 1
    let p_term := active_kp * error
    let i_term := active_ki * integral2
    let d_term := pid.kd * filtered_d * d_multiplier
    let raw_output := OUTPUT_BASELINE + p_term + i_term - d_term
    let final_output := fclamp raw_output OUTPUT_MIN_CLAMP OUTPUT_MAX_CLAMP
    let saturated_flag : ℤ := if 1e-6 < |raw_output - final_output| then 1 else 0
    (final_output,
      { pid with
          integral := integral2
          prev_pv := current_vel
          filtered_d := filtered_d
          is_saturated := saturated_flag })

/-! ### Pricing engine (`economy/pricing.rs`) -/

/-- `pricing.rs` `compute_price_behavioral_core`.  The source's non-finite
input guard (early return of 0.01) is identically false over `ℝ`. -/
noncomputable def compute_price_behavioral_core (base_price_micros : ℤ)
    (n_eff : ℝ) (trade_amount_micros : ℤ) (lambda epsilon : ℝ) : ℝ :=
  let base_price_f64 := (base_price_micros : ℝ) / MICROS_SCALE
  let trade_amount_f64 := (trade_amount_micros : ℝ) / MICROS_SCALE
  let adj_lambda := if 0 < trade_amount_micros then lambda * 0.6 else lambda
  let total_n := n_eff + trade_amount_f64
  let raw_exponent := fclamp (-adj_lambda * total_n) (-100) 100
  let clamped_exponent := 10 * Real.tanh (raw_exponent / 10)
  let final_price := base_price_f64 * epsilon * Real.exp clamped_exponent
  max final_price 0.01

/-- `pricing.rs` `compute_price_bounded_internal`: behavioral core price with
the dynamic floor `max(hist_avg * 0.2, 0.01)`. -/
noncomputable def compute_price_bounded_internal (base_micros : ℤ) (n_eff : ℝ)
    (amt_micros : ℤ) (lambda eps hist_avg : ℝ) : ℝ :=
  let raw_price := compute_price_behavioral_core base_micros n_eff amt_micros lambda eps
  let floor := max (hist_avg * 0.2) 0.01
  if raw_price < floor then floor else raw_price

/-! ### Transfer regulator (`security/regulator.rs`) -/

/-- `regulator.rs` status code. -/
def CODE_NORMAL : ℤ := 0

/-- `regulator.rs` status code. -/
def CODE_WARNING_HIGH_RISK : ℤ := 1

/-- `regulator.rs` status code. -/
def CODE_BLOCK_VELOCITY_LIMIT : ℤ := 5

/-- `regulator.rs` status code. -/
def CODE_BLOCK_QUANTITY_LIMIT : ℤ := 6

/-- `regulator.rs` lines 34-45: the dynamic per-transfer quantity limit,
converted back to micros with the saturating `as i64` cast.  (For negative
play time the source's `sqrt` yields NaN; `Real.sqrt` yields 0 there, a case
outside every claim considered.) -/
noncomputable def final_limit_micros (ctx : TransferContext) : ℤ :=
  let play_hours := (ctx.sender_play_time : ℝ) / 3600
  let base_limit := (ctx.item_base_limit : ℝ) / MICROS_SCALE
  let max_limit := (ctx.item_max_limit : ℝ) / MICROS_SCALE
  let calculated_limit := base_limit + ctx.item_growth_rate * Real.sqrt play_hours
  let final_limit := min calculated_limit max_limit
  i64ofReal (final_limit * MICROS_SCALE)

/-- `regulator.rs` lines 57-61: the behavioral velocity "puppet factor". -/
noncomputable def puppet_factor (ctx : TransferContext) : ℝ :=
  if ctx.sender_activity_score < 0.1 then ctx.sender_velocity * 2
  else ctx.sender_velocity / max ctx.sender_activity_score 0.1

/-- `regulator.rs` lines 83-105: the adaptive behavioral tax in `f64` units,
before the 80 percent cap. -/
noncomputable def transfer_tax_f64 (ctx : TransferContext) (cfg : RegulatorConfig) : ℝ :=
  let amount_f64 := (ctx.amount_micros : ℝ) / MICROS_SCALE
  let sender_bal_f64 := (ctx.sender_balance : ℝ) / MICROS_SCALE
  let receiver_bal_f64 := (ctx.receiver_balance : ℝ) / MICROS_SCALE
  let inflation_adj := 1 + max ctx.inflation_rate 0
  let tax0 := amount_f64 * cfg.base_tax_rate * inflation_adj
  let behavioral_penalty := Real.exp (ctx.sender_velocity * 0.05)
  let tax1 := tax0 * behavioral_penalty
  let luxury_threshold_f64 := (cfg.luxury_threshold : ℝ) / MICROS_SCALE
  let tax2 :=
    if luxury_threshold_f64 < amount_f64 then
      (amount_f64 - luxury_threshold_f64) * cfg.luxury_tax_rate + tax1
    else tax1
  let poor_threshold_f64 := (cfg.poor_threshold : ℝ) / MICROS_SCALE
  let rich_threshold_f64 := (cfg.rich_threshold : ℝ) / MICROS_SCALE
  if sender_bal_f64 < poor_threshold_f64 ∧ rich_threshold_f64 < receiver_bal_f64 then
    max tax2 (amount_f64 * cfg.wealth_gap_tax_rate)
  else tax2

/-- `regulator.rs` `compute_transfer_check_internal`.  The i64 expression
`final_limit_micros * 85 / 100` uses Rust's truncating integer division,
modelled by `Int.tdiv`. -/
noncomputable def compute_transfer_check_internal (ctx : TransferContext)
    (cfg : RegulatorConfig) : TransferResult :=
  if final_limit_micros ctx < ctx.amount_micros ∧ 0 < final_limit_micros ctx then
    { final_tax_micros := 0, is_blocked := 1, warning_code := CODE_BLOCK_QUANTITY_LIMIT }
  else if cfg.velocity_threshold < puppet_factor ctx then
    { final_tax_micros := 0, is_blocked := 1, warning_code := CODE_BLOCK_VELOCITY_LIMIT }
  else
    let warning_code :=
      if (final_limit_micros ctx * 85).tdiv 100 < ctx.amount_micros
          ∨ cfg.velocity_threshold * 0.7 < puppet_factor ctx then
        CODE_WARNING_HIGH_RISK
      else CODE_NORMAL
    let amount_f64 := (ctx.amount_micros : ℝ) / MICROS_SCALE
    let tax_clamped := min (transfer_tax_f64 ctx cfg) (amount_f64 * 0.8)
    { final_tax_micros := i64ofReal (tax_clamped * MICROS_SCALE)
      is_blocked := 0
      warning_code := warning_code }

/-! ### General helper lemmas -/

theorem rtz_intCast (n : ℤ) : rtz (n : ℝ) = n := by
  unfold rtz
  split_ifs with h
  · exact Int.floor_intCast n
  · rw [← Int.cast_neg, Int.floor_intCast]; ring

theorem i64ofReal_intCast (n : ℤ) (hlo : I64_MIN ≤ n) (hhi : n ≤ I64_MAX) :
    i64ofReal (n : ℝ) = n := by
  unfold i64ofReal
  rw [rtz_intCast, max_eq_left hlo, min_eq_left hhi]

theorem rtz_le_of_le (x B : ℝ) (hx : x ≤ B) (hB : 0 ≤ B) : (rtz x : ℝ) ≤ B := by
  unfold rtz
  split_ifs with h
  · exact le_trans (Int.floor_le x) hx
  · push_cast
    have h1 : (0 : ℤ) ≤ ⌊-x⌋ := Int.floor_nonneg.mpr (by linarith)
    have h2 : (0 : ℝ) ≤ (⌊-x⌋ : ℝ) := by exact_mod_cast h1
    linarith

theorem i64ofReal_le_of_le (x B : ℝ) (hx : x ≤ B) (hB : 0 ≤ B) :
    (i64ofReal x : ℝ) ≤ B := by
  unfold i64ofReal
  have h1 := rtz_le_of_le x B hx hB
  have hmin : ((I64_MIN : ℤ) : ℝ) ≤ B := by
    unfold I64_MIN; push_cast; nlinarith
  push_cast
  exact le_trans (min_le_left _ _) (max_le h1 hmin)

theorem i64ofReal_nonneg_small (x : ℝ) (h0 : 0 ≤ x) (h : x ≤ (I64_MAX : ℝ)) :
    i64ofReal x = ⌊x⌋ := by
  unfold i64ofReal rtz
  rw [if_pos h0]
  have h1 : I64_MIN ≤ ⌊x⌋ := by
    have : (0 : ℤ) ≤ ⌊x⌋ := Int.floor_nonneg.mpr h0
    unfold I64_MIN; omega
  have h2 : ⌊x⌋ ≤ I64_MAX := by
    have := Int.floor_le_floor h
    rwa [Int.floor_intCast] at this
  rw [max_eq_left h1, min_eq_left h2]

theorem i64SatSub_eq (a b : ℤ) (h1 : I64_MIN ≤ a - b) (h2 : a - b ≤ I64_MAX) :
    i64SatSub a b = a - b := by
  unfold i64SatSub
  rw [max_eq_left h1, min_eq_left h2]

theorem le_fclamp (x lo hi : ℝ) (h : lo ≤ hi) : lo ≤ fclamp x lo hi :=
  le_min (le_max_right x lo) h

theorem fclamp_le (x lo hi : ℝ) : fclamp x lo hi ≤ hi := min_le_right _ _

theorem tanh_eq_one_sub_aux (x : ℝ) :
    Real.tanh x = 1 - 2 / (Real.exp (2 * x) + 1) := by
  rw [Real.tanh_eq_sinh_div_cosh, Real.sinh_eq, Real.cosh_eq]
  have h1 : Real.exp x > 0 := Real.exp_pos x
  have h2 : Real.exp (-x) = 1 / Real.exp x := by rw [Real.exp_neg, inv_eq_one_div]
  have h3 : Real.exp (2 * x) = Real.exp x * Real.exp x := by rw [two_mul, Real.exp_add]
  rw [h2, h3]
  have h4 : Real.exp x ≠ 0 := ne_of_gt h1
  field_simp
  ring

theorem tanh_lt_tanh_of_lt (a b : ℝ) (hab : a < b) : Real.tanh a < Real.tanh b := by
  rw [tanh_eq_one_sub_aux a, tanh_eq_one_sub_aux b]
  have ha : (0 : ℝ) < Real.exp (2 * a) + 1 := by positivity
  have hlt : Real.exp (2 * a) + 1 < Real.exp (2 * b) + 1 := by
    have := Real.exp_lt_exp.mpr (by linarith : 2 * a < 2 * b)
    linarith
  have hdiv : 2 / (Real.exp (2 * b) + 1) < 2 / (Real.exp (2 * a) + 1) :=
    div_lt_div_of_pos_left (by norm_num) ha hlt
  linarith

/-! ### Claim C5 -/

/-- C5: for every trade context and market config,
`calculate_epsilon_internal` returns a factor in the closed interval
[0.1, 10.0]. -/
theorem C5_epsilon_in_range (ctx : TradeContext) (cfg : MarketConfig) :
    0.1 ≤ calculate_epsilon_internal ctx cfg ∧ calculate_epsilon_internal ctx cfg ≤ 10 := by
  simp only [calculate_epsilon_internal]
  exact ⟨le_fclamp _ _ _ (by norm_num), fclamp_le _ _ _⟩

/-! ### Claim C6 -/

/-- C6: for every base price, lambda, epsilon, trade amount, every
non-negative historical average price, and every effective-volume value,
`compute_price_bounded_internal` never returns a price below
`max(0.01, 0.2 × historical average price)`. -/
theorem C6_bounded_price_floor (base_micros : ℤ) (n_eff : ℝ) (amt_micros : ℤ)
    (lambda eps hist_avg : ℝ) (hh : 0 ≤ hist_avg) :
    max 0.01 (0.2 * hist_avg)
      ≤ compute_price_bounded_internal base_micros n_eff amt_micros lambda eps hist_avg := by
  simp only [compute_price_bounded_internal]
  have hmax : max (0.01 : ℝ) (0.2 * hist_avg) = max (hist_avg * 0.2) 0.01 := by
    rw [max_comm, mul_comm]
  split_ifs with h
  · exact le_of_eq hmax
  · rw [hmax]; linarith [not_lt.mp h]

/-- C6 witness: the floor theorem applied at a concrete input. -/
theorem C6_bounded_price_floor_witness :
    (0 : ℝ) ≤ 1 ∧ max 0.01 (0.2 * 1) ≤ compute_price_bounded_internal 0 0 0 0 0 1 :=
  ⟨by norm_num, C6_bounded_price_floor 0 0 0 0 0 1 (by norm_num)⟩

/-! ### Claim C7 -/

/-- C7 counterexample: with proportional gain `kp = 0` the adaptive
proportional gain is 0 at every heat, so it is not strictly greater at heat 1
than at heat 0 — the claim fails for this PID state. -/
theorem C7_counterexample :
    ¬ (compute_adaptive_gain ⟨0, 0, 0, 0, 0, 0, 0, 0, 0⟩ 1).1
        > (compute_adaptive_gain ⟨0, 0, 0, 0, 0, 0, 0, 0, 0⟩ 0).1 := by
  simp only [compute_adaptive_gain, gt_iff_lt]
  norm_num

/-- C7 amended: for every PID state with positive proportional gain `kp` and
all heats `heat₂ > heat₁ ≥ 0`, the adaptive proportional gain at `heat₂` is
strictly greater than at `heat₁`. -/
theorem C7_adaptive_gain_strict_mono (cfg : PidState) (heat₁ heat₂ : ℝ)
    (hk : 0 < cfg.kp) (h0 : 0 ≤ heat₁) (hlt : heat₁ < heat₂) :
    (compute_adaptive_gain cfg heat₁).1 < (compute_adaptive_gain cfg heat₂).1 := by
  simp only [compute_adaptive_gain]
  have ht : Real.tanh (heat₁ * HEAT_SENSITIVITY) < Real.tanh (heat₂ * HEAT_SENSITIVITY) := by
    apply tanh_lt_tanh_of_lt
    have : (0 : ℝ) < HEAT_SENSITIVITY := by unfold HEAT_SENSITIVITY; norm_num
    nlinarith
  have : (1 : ℝ) + Real.tanh (heat₁ * HEAT_SENSITIVITY)
      < 1 + Real.tanh (heat₂ * HEAT_SENSITIVITY) := by linarith
  exact mul_lt_mul_of_pos_left this hk

/-- C7 witness: the amended monotonicity applied at `kp = 1`, heats 0 and 1. -/
theorem C7_adaptive_gain_strict_mono_witness :
    (0 : ℝ) < (1 : ℝ) ∧ (0 : ℝ) ≤ 0 ∧ (0 : ℝ) < 1 ∧
      (compute_adaptive_gain ⟨1, 0, 0, 0, 0, 0, 0, 0, 0⟩ 0).1
        < (compute_adaptive_gain ⟨1, 0, 0, 0, 0, 0, 0, 0, 0⟩ 1).1 :=
  ⟨by norm_num, by norm_num, by norm_num,
    C7_adaptive_gain_strict_mono ⟨1, 0, 0, 0, 0, 0, 0, 0, 0⟩ 0 1
      (by norm_num) (by norm_num) (by norm_num)⟩

/-! ### Claim C8 -/

/-- C8: whenever `dt` is negative (the representable part of "non-finite or
negative" over `ℝ`), `compute_pid_adjustment_internal` returns exactly the
neutral baseline 1.0 and leaves the state record unchanged. -/
theorem C8_negative_dt_neutral (pid : PidState)
    (target_vel current_vel dt inflation market_heat : ℝ) (hdt : dt < 0) :
    compute_pid_adjustment_internal pid target_vel current_vel dt inflation market_heat
      = (1, pid) := by
  simp only [compute_pid_adjustment_internal]
  rw [if_pos hdt]
  rfl

/-- C8 witness: the neutral short-circuit applied at `dt = -1`. -/
theorem C8_negative_dt_neutral_witness :
    (-1 : ℝ) < 0 ∧
      compute_pid_adjustment_internal ⟨0, 0, 0, 0, 0, 0, 0, 0, 0⟩ 0 0 (-1) 0 0
        = (1, ⟨0, 0, 0, 0, 0, 0, 0, 0, 0⟩) :=
  ⟨by norm_num, C8_negative_dt_neutral ⟨0, 0, 0, 0, 0, 0, 0, 0, 0⟩ 0 0 (-1) 0 0 (by norm_num)⟩

/-! ### Claim C10 -/

/-- C10: every result of `compute_transfer_check_internal` either is blocked
with zero tax and warning code `CODE_BLOCK_QUANTITY_LIMIT` (6) or
`CODE_BLOCK_VELOCITY_LIMIT` (5), or is not blocked with warning code
`CODE_NORMAL` (0) or `CODE_WARNING_HIGH_RISK` (1). -/
theorem C10_result_code_partition (ctx : TransferContext) (cfg : RegulatorConfig) :
    ((compute_transfer_check_internal ctx cfg).is_blocked = 1
      ∧ (compute_transfer_check_internal ctx cfg).final_tax_micros = 0
      ∧ ((compute_transfer_check_internal ctx cfg).warning_code = CODE_BLOCK_QUANTITY_LIMIT
        ∨ (compute_transfer_check_internal ctx cfg).warning_code = CODE_BLOCK_VELOCITY_LIMIT))
    ∨ ((compute_transfer_check_internal ctx cfg).is_blocked = 0
      ∧ ((compute_transfer_check_internal ctx cfg).warning_code = CODE_NORMAL
        ∨ (compute_transfer_check_internal ctx cfg).warning_code = CODE_WARNING_HIGH_RISK)) := by
  simp only [compute_transfer_check_internal]
  split_ifs <;> simp

/-! ### Claim C3 -/

/-- C3 counterexample: with base limit, growth rate and max limit all zero
the computed limit in micros is 0, the requested 5000000 micros exceeds it,
yet the transfer is not blocked, because the source only blocks when the
limit is positive (`final_limit_micros > 0`). -/
theorem C3_counterexample :
    final_limit_micros ⟨5000000, 0, 0, 0, 0, 0, 0, 0, 0, 0, 0⟩ = 0
    ∧ (5000000 : ℤ) > 0
    ∧ (compute_transfer_check_internal ⟨5000000, 0, 0, 0, 0, 0, 0, 0, 0, 0, 0⟩
        ⟨0, 0, 0, 0, 0, 0, 0, 0, 0, 0, 1⟩).is_blocked = 0 := by
  have hfl : final_limit_micros ⟨5000000, 0, 0, 0, 0, 0, 0, 0, 0, 0, 0⟩ = 0 := by
    simp only [final_limit_micros, MICROS_SCALE]
    norm_num [Real.sqrt_zero]
    rw [show ((0 : ℝ)) = ((0 : ℤ) : ℝ) by norm_num]
    rw [i64ofReal_intCast 0 (by unfold I64_MIN; norm_num) (by unfold I64_MAX; norm_num)]
  refine ⟨hfl, by norm_num, ?_⟩
  simp only [compute_transfer_check_internal]
  rw [if_neg, if_neg]
  · -- the puppet factor of a zero-activity zero-velocity sender is 0
    simp only [puppet_factor]
    rw [if_pos (by norm_num)]
    norm_num
  · rw [hfl]
    simp

/-- C3 amended: whenever the requested `amount_micros` exceeds the dynamic
per-transfer quantity limit expressed in micros AND that limit is positive,
`compute_transfer_check_internal` blocks immediately with `is_blocked = 1`,
warning code `CODE_BLOCK_QUANTITY_LIMIT` and zero tax. -/
theorem C3_quantity_limit_blocks (ctx : TransferContext) (cfg : RegulatorConfig)
    (h1 : final_limit_micros ctx < ctx.amount_micros)
    (h2 : 0 < final_limit_micros ctx) :
    compute_transfer_check_internal ctx cfg
      = { final_tax_micros := 0, is_blocked := 1,
          warning_code := CODE_BLOCK_QUANTITY_LIMIT } := by
  simp only [compute_transfer_check_internal]
  rw [if_pos ⟨h1, h2⟩]

/-- C3 witness: the blocking theorem applied at a context whose limit in
micros is 1000000 and whose requested amount is 2000000 micros. -/
theorem C3_quantity_limit_blocks_witness :
    final_limit_micros ⟨2000000, 0, 0, 0, 1000000, 0, 2000000, 0, 0, 0, 0⟩ < 2000000
    ∧ 0 < final_limit_micros ⟨2000000, 0, 0, 0, 1000000, 0, 2000000, 0, 0, 0, 0⟩
    ∧ compute_transfer_check_internal ⟨2000000, 0, 0, 0, 1000000, 0, 2000000, 0, 0, 0, 0⟩
        ⟨0, 0, 0, 0, 0, 0, 0, 0, 0, 0, 1⟩
      = { final_tax_micros := 0, is_blocked := 1,
          warning_code := CODE_BLOCK_QUANTITY_LIMIT } := by
  have hfl : final_limit_micros ⟨2000000, 0, 0, 0, 1000000, 0, 2000000, 0, 0, 0, 0⟩
      = 1000000 := by
    simp only [final_limit_micros, MICROS_SCALE]
    norm_num [Real.sqrt_zero]
    rw [show ((1000000 : ℝ)) = ((1000000 : ℤ) : ℝ) by norm_num]
    rw [i64ofReal_intCast 1000000 (by unfold I64_MIN; norm_num) (by unfold I64_MAX; norm_num)]
  exact ⟨by rw [hfl]; norm_num, by rw [hfl]; norm_num,
    C3_quantity_limit_blocks _ _ (by rw [hfl]; norm_num) (by rw [hfl]; norm_num)⟩

/-! ### Claim C4 -/

/-- Bound on the clamped tax value of `compute_transfer_check_internal`'s
non-blocking branch. -/
theorem transfer_tax_value_le (ctx : TransferContext) (cfg : RegulatorConfig)
    (hamt : 0 ≤ ctx.amount_micros) :
    ((i64ofReal (min (transfer_tax_f64 ctx cfg)
        ((ctx.amount_micros : ℝ) / MICROS_SCALE * 0.8) * MICROS_SCALE) : ℤ) : ℝ)
      ≤ 0.8 * (ctx.amount_micros : ℝ) := by
  have hA : (0 : ℝ) ≤ (ctx.amount_micros : ℝ) := by exact_mod_cast hamt
  have hB : (0 : ℝ) ≤ 0.8 * (ctx.amount_micros : ℝ) := by linarith
  have hS : (0 : ℝ) < MICROS_SCALE := by unfold MICROS_SCALE; norm_num
  apply i64ofReal_le_of_le _ _ _ hB
  have step : min (transfer_tax_f64 ctx cfg)
      ((ctx.amount_micros : ℝ) / MICROS_SCALE * 0.8) * MICROS_SCALE
      ≤ ((ctx.amount_micros : ℝ) / MICROS_SCALE * 0.8) * MICROS_SCALE :=
    mul_le_mul_of_nonneg_right (min_le_right _ _) hS.le
  have eq1 : ((ctx.amount_micros : ℝ) / MICROS_SCALE * 0.8) * MICROS_SCALE
      = 0.8 * (ctx.amount_micros : ℝ) := by
    field_simp
    try ring
  linarith

/-- C4: for every transfer context with non-negative `amount_micros` and
every regulator config, a non-blocked result carries a final tax of at most
80 percent of the transfer amount. -/
theorem C4_tax_cap (ctx : TransferContext) (cfg : RegulatorConfig)
    (hamt : 0 ≤ ctx.amount_micros)
    (hnb : (compute_transfer_check_internal ctx cfg).is_blocked = 0) :
    ((compute_transfer_check_internal ctx cfg).final_tax_micros : ℝ)
      ≤ 0.8 * (ctx.amount_micros : ℝ) := by
  simp only [compute_transfer_check_internal] at hnb ⊢
  split_ifs at hnb ⊢ with hc1 hc2
  · exact absurd hnb (by norm_num)
  · exact absurd hnb (by norm_num)
  all_goals exact transfer_tax_value_le ctx cfg hamt

/-- C4 witness: the tax cap applied at the all-zero context, which is not
blocked under a velocity threshold of 1. -/
theorem C4_tax_cap_witness :
    (0 : ℤ) ≤ (0 : ℤ)
    ∧ (compute_transfer_check_internal ⟨0, 0, 0, 0, 0, 0, 0, 0, 0, 0, 0⟩
        ⟨0, 0, 0, 0, 0, 0, 0, 0, 0, 0, 1⟩).is_blocked = 0
    ∧ ((compute_transfer_check_internal ⟨0, 0, 0, 0, 0, 0, 0, 0, 0, 0, 0⟩
        ⟨0, 0, 0, 0, 0, 0, 0, 0, 0, 0, 1⟩).final_tax_micros : ℝ)
      ≤ 0.8 * ((0 : ℤ) : ℝ) := by
  have hfl : final_limit_micros ⟨0, 0, 0, 0, 0, 0, 0, 0, 0, 0, 0⟩ = 0 := by
    simp only [final_limit_micros, MICROS_SCALE]
    norm_num [Real.sqrt_zero]
    rw [show ((0 : ℝ)) = ((0 : ℤ) : ℝ) by norm_num]
    rw [i64ofReal_intCast 0 (by unfold I64_MIN; norm_num) (by unfold I64_MAX; norm_num)]
  have hnb : (compute_transfer_check_internal ⟨0, 0, 0, 0, 0, 0, 0, 0, 0, 0, 0⟩
      ⟨0, 0, 0, 0, 0, 0, 0, 0, 0, 0, 1⟩).is_blocked = 0 := by
    simp only [compute_transfer_check_internal]
    rw [if_neg, if_neg]
    · simp only [puppet_factor]
      rw [if_pos (by norm_num)]
      norm_num
    · rw [hfl]
      simp
  exact ⟨le_refl 0, hnb,
    C4_tax_cap ⟨0, 0, 0, 0, 0, 0, 0, 0, 0, 0, 0⟩ ⟨0, 0, 0, 0, 0, 0, 0, 0, 0, 0, 1⟩
      (le_refl 0) hnb⟩

/-! ### Claim C9 -/

/-- In a time-sorted window, a bound on the last record's timestamp bounds
every record's timestamp. -/
theorem sorted_last_bound (h : List HistoryRecord) (ts : ℤ)
    (hs : TimeSorted h)
    (hlast : ∀ r, h.getLast? = some r → r.timestamp ≤ ts) :
    ∀ r ∈ h, r.timestamp ≤ ts := by
  induction h with
  | nil => intro r hr; simp at hr
  | cons a t ih =>
    rw [TimeSorted, List.pairwise_cons] at hs
    obtain ⟨ha, ht⟩ := hs
    intro r hr
    rcases List.mem_cons.mp hr with hr | hr
    · subst hr
      cases t with
      | nil => exact hlast r (by simp)
      | cons b t' =>
        have hsome : ((b :: t').getLast?).isSome := by
          rw [List.getLast?_isSome]; simp
        obtain ⟨l, hl⟩ := Option.isSome_iff_exists.mp hsome
        have h1 : r.timestamp ≤ l.timestamp := ha l (List.mem_of_mem_getLast? hl)
        have h2 : l.timestamp ≤ ts := by
          apply hlast
          rw [List.getLast?_cons_cons]
          exact hl
        exact le_trans h1 h2
    · apply ih ht _ r hr
      intro r' h'
      cases t with
      | nil => simp at h'
      | cons b t' =>
        apply hlast
        rw [List.getLast?_cons_cons]
        exact h'

/-- C9: provided each append supplies a timestamp not smaller than the last
stored record's, a time-sorted window of length at most `MAX_HISTORY_SIZE`
stays time-sorted and capped after `append_trade_to_memory`; and when the
append overflows the cap, the window length drops to `PRUNE_TO_SIZE`. -/
theorem C9_append_invariant (h : List HistoryRecord) (ts : ℤ) (amount : ℝ)
    (hs : TimeSorted h) (hlen : h.length ≤ MAX_HISTORY_SIZE)
    (hlast : ∀ r, h.getLast? = some r → r.timestamp ≤ ts) :
    TimeSorted (append_trade_to_memory h ts amount)
    ∧ (append_trade_to_memory h ts amount).length ≤ MAX_HISTORY_SIZE
    ∧ (h.length = MAX_HISTORY_SIZE →
        (append_trade_to_memory h ts amount).length = PRUNE_TO_SIZE) := by
  have hall : ∀ r ∈ h, r.timestamp ≤ ts := sorted_last_bound h ts hs hlast
  have hpush : TimeSorted (h ++ [⟨ts, i64ofReal (amount * MICROS_SCALE)⟩]) := by
    rw [TimeSorted, List.pairwise_append]
    refine ⟨hs, by simp, ?_⟩
    intro a haa b hb
    rw [List.mem_singleton] at hb
    subst hb
    exact hall a haa
  have hlen' : (h ++ [(⟨ts, i64ofReal (amount * MICROS_SCALE)⟩ : HistoryRecord)]).length
      = h.length + 1 := by simp
  simp only [append_trade_to_memory]
  split_ifs with hover
  · rw [hlen'] at hover
    refine ⟨hpush.sublist (List.drop_sublist _ _), ?_, ?_⟩
    · rw [List.length_drop, hlen']
      unfold MAX_HISTORY_SIZE PRUNE_TO_SIZE at *
      omega
    · intro _
      rw [List.length_drop, hlen']
      unfold MAX_HISTORY_SIZE PRUNE_TO_SIZE at *
      omega
  · rw [hlen'] at hover
    refine ⟨hpush, ?_, ?_⟩
    · rw [hlen']
      unfold MAX_HISTORY_SIZE at *
      omega
    · intro heq
      unfold MAX_HISTORY_SIZE PRUNE_TO_SIZE at *
      omega

/-- C9 witness: the append invariant applied to the empty window. -/
theorem C9_append_invariant_witness :
    TimeSorted ([] : List HistoryRecord)
    ∧ ([] : List HistoryRecord).length ≤ MAX_HISTORY_SIZE
    ∧ (∀ r, ([] : List HistoryRecord).getLast? = some r → r.timestamp ≤ 0)
    ∧ (TimeSorted (append_trade_to_memory [] 0 0)
      ∧ (append_trade_to_memory [] 0 0).length ≤ MAX_HISTORY_SIZE
      ∧ (([] : List HistoryRecord).length = MAX_HISTORY_SIZE →
          (append_trade_to_memory [] 0 0).length = PRUNE_TO_SIZE)) :=
  ⟨List.Pairwise.nil, by simp [MAX_HISTORY_SIZE], by intro r hr; simp at hr,
    C9_append_invariant [] 0 0 List.Pairwise.nil (by simp [MAX_HISTORY_SIZE])
      (by intro r hr; simp at hr)⟩

/-! ### Claim C2 -/

/-- C2: evaluation of the weekend sub-factor at the failing inputs.  Local
day 3 (1970-01-04, timestamp 259200000 ms, offset 0) is a Sunday (true
weekday 6 under the source comment's 0 = Monday convention), yet the code's
weekend factor is 1 rather than the configured multiplier 1.2; local day 1
(1970-01-02, timestamp 86400000 ms) is a Friday (true weekday 4), yet the
code applies the weekend multiplier 1.2 there.  The code's `(day + 4) % 7`
contradicts its own 0 = Monday comment, under which the correct offset for
the Thursday epoch is `+ 3`. -/
theorem C2_weekend_day_bug :
    epsilon_weekend_factor ⟨0, 0, 0, 259200000, 0, 0, 0, 0, 0⟩
        ⟨0, 0, 0, 1.2, 0, 0, 0, 0, 0⟩ = 1
    ∧ true_weekday_monday0 (epsilon_day_index ⟨0, 0, 0, 259200000, 0, 0, 0, 0, 0⟩) = 6
    ∧ epsilon_weekend_factor ⟨0, 0, 0, 86400000, 0, 0, 0, 0, 0⟩
        ⟨0, 0, 0, 1.2, 0, 0, 0, 0, 0⟩ = 1.2
    ∧ true_weekday_monday0 (epsilon_day_index ⟨0, 0, 0, 86400000, 0, 0, 0, 0, 0⟩) = 4 := by
  have hS : epsilon_day_index ⟨0, 0, 0, 259200000, 0, 0, 0, 0, 0⟩ = 3 := by
    simp only [epsilon_day_index, ts_sec_local, SECONDS_PER_DAY]
    rw [Int.floor_eq_iff]
    constructor
    · push_cast; norm_num
    · push_cast; norm_num
  have hF : epsilon_day_index ⟨0, 0, 0, 86400000, 0, 0, 0, 0, 0⟩ = 1 := by
    simp only [epsilon_day_index, ts_sec_local, SECONDS_PER_DAY]
    rw [Int.floor_eq_iff]
    constructor
    · push_cast; norm_num
    · push_cast; norm_num
  have hdowS : epsilon_day_of_week ⟨0, 0, 0, 259200000, 0, 0, 0, 0, 0⟩ = 0 := by
    simp only [epsilon_day_of_week, hS]; decide
  have hdowF : epsilon_day_of_week ⟨0, 0, 0, 86400000, 0, 0, 0, 0, 0⟩ = 5 := by
    simp only [epsilon_day_of_week, hF]; decide
  refine ⟨?_, ?_, ?_, ?_⟩
  · simp only [epsilon_weekend_factor, hdowS]
    norm_num
  · rw [hS]; decide
  · simp only [epsilon_weekend_factor, hdowF]
    norm_num
  · rw [hF]; decide

/-! ### Claim C1 -/

/-- Every record surviving the `dropWhile` prefix removal of a time-sorted
window has a timestamp at least the cut bound. -/
theorem dropWhile_ts_bound (past : ℤ) (l : List HistoryRecord) (hs : TimeSorted l) :
    ∀ r ∈ l.dropWhile (fun r => decide (r.timestamp < past)), past ≤ r.timestamp := by
  induction l with
  | nil => intro r hr; simp at hr
  | cons a t ih =>
    rw [TimeSorted, List.pairwise_cons] at hs
    obtain ⟨ha, ht⟩ := hs
    rw [List.dropWhile_cons]
    split_ifs with hcond
    · exact ih ht
    · simp only [decide_eq_true_eq] at hcond
      push_neg at hcond
      intro r hr
      rcases List.mem_cons.mp hr with hr | hr
      · subst hr; exact hcond
      · exact le_trans hcond (ha r hr)

/-- C1 amended: on a time-sorted window, for positive `tau` whose 10-tau-day
window width fits in `i64`, the in-memory volume query equals the windowed
decayed sum over exactly the records at most `10·tau` days (the truncated
`tau * MS_PER_DAY * 10`) before `now`, extended by the 60-second future
tolerance, each weighted by `exp(-(now-ts)/(tau·86400000))` and scaled back
from micros. -/
theorem C1_volume_window (history : List HistoryRecord) (current_time : ℤ) (tau : ℝ)
    (hs : TimeSorted history) (ht : 0 < tau)
    (hw : tau * MS_PER_DAY * 10 + 60000 ≤ ((I64_MAX : ℤ) : ℝ)) :
    calculate_volume_in_memory history current_time tau
      = volume_window_sum history current_time tau
          ((current_time - i64ofReal (tau * MS_PER_DAY * 10) : ℤ) : ℝ) := by
  have hMS : (0 : ℝ) < MS_PER_DAY := by unfold MS_PER_DAY; norm_num
  have htMS : (0 : ℝ) < tau * MS_PER_DAY := mul_pos ht hMS
  have hS0 : (0 : ℝ) < MICROS_SCALE := by unfold MICROS_SCALE; norm_num
  have harg0 : (0 : ℝ) ≤ tau * MS_PER_DAY * 10 := by positivity
  have hargM : tau * MS_PER_DAY * 10 ≤ ((I64_MAX : ℤ) : ℝ) := by linarith
  have hflr : i64ofReal (tau * MS_PER_DAY * 10) = ⌊tau * MS_PER_DAY * 10⌋ :=
    i64ofReal_nonneg_small _ harg0 hargM
  have hflrM : i64ofReal (tau * MS_PER_DAY * 10) ≤ I64_MAX - 60000 := by
    rw [hflr]
    have h1 : (⌊tau * MS_PER_DAY * 10⌋ : ℝ) ≤ ((I64_MAX - 60000 : ℤ) : ℝ) := by
      push_cast
      have := Int.floor_le (tau * MS_PER_DAY * 10)
      linarith
    exact_mod_cast h1
  by_cases hemp : history = []
  · subst hemp
    simp [calculate_volume_in_memory, volume_window_sum]
  simp only [calculate_volume_in_memory, volume_window_sum]
  rw [if_neg (by push_neg; exact ⟨hemp, ht⟩)]
  rcases hcase : history.dropWhile
      (fun r => decide (r.timestamp < current_time - i64ofReal (tau * MS_PER_DAY * 10)))
    with _ | ⟨r0, rest⟩
  · -- the whole window lies before the cut: both sides are 0
    rw [hcase, if_pos (show (List.isEmpty ([] : List HistoryRecord)) = true from rfl)]
    have htk := List.takeWhile_append_dropWhile
      (fun r => decide (r.timestamp < current_time - i64ofReal (tau * MS_PER_DAY * 10))) history
    rw [hcase, List.append_nil] at htk
    have hall : ∀ r ∈ history,
        r.timestamp < current_time - i64ofReal (tau * MS_PER_DAY * 10) := by
      intro r hr
      rw [← htk] at hr
      simpa using List.mem_takeWhile_imp hr
    symm
    apply div_eq_zero_iff.mpr
    left
    apply List.sum_eq_zero
    intro x hx
    obtain ⟨r, hr, rfl⟩ := List.mem_map.mp hx
    unfold window_term
    rw [if_neg]
    rintro ⟨hc1, -⟩
    rw [Int.cast_le] at hc1
    have := hall r hr
    omega
  · -- nonempty relevant slice
    rw [hcase]
    rw [if_neg (by simp)]
    have hhead : (r0 :: rest).headI = r0 := rfl
    rw [hhead]
    have happ : history.takeWhile
        (fun r => decide (r.timestamp < current_time - i64ofReal (tau * MS_PER_DAY * 10)))
        ++ (r0 :: rest) = history := by
      conv_rhs => rw [← List.takeWhile_append_dropWhile
        (fun r => decide (r.timestamp < current_time - i64ofReal (tau * MS_PER_DAY * 10))) history]
      rw [hcase]
    have hlb : ∀ r ∈ (r0 :: rest),
        current_time - i64ofReal (tau * MS_PER_DAY * 10) ≤ r.timestamp := by
      have := dropWhile_ts_bound
        (current_time - i64ofReal (tau * MS_PER_DAY * 10)) history hs
      rw [hcase] at this
      exact this
    have hrel : TimeSorted (r0 :: rest) := by
      rw [← hcase]
      exact List.Pairwise.sublist (List.dropWhile_sublist _) hs
    have hmin : ∀ r ∈ (r0 :: rest), r0.timestamp ≤ r.timestamp := by
      intro r hr
      rcases List.mem_cons.mp hr with rfl | hr
      · exact le_refl _
      · exact (List.pairwise_cons.mp hrel).1 r hr
    -- the prefix removed by the binary search contributes nothing
    have hz : ∀ r ∈ history.takeWhile
        (fun r => decide (r.timestamp < current_time - i64ofReal (tau * MS_PER_DAY * 10))),
        window_term current_time tau
          ((current_time - i64ofReal (tau * MS_PER_DAY * 10) : ℤ) : ℝ) r = 0 := by
      intro r hr
      have hlt : r.timestamp < current_time - i64ofReal (tau * MS_PER_DAY * 10) := by
        simpa using List.mem_takeWhile_imp hr
      unfold window_term
      rw [if_neg]
      rintro ⟨hc1, -⟩
      rw [Int.cast_le] at hc1
      omega
    have hsum1 : (history.map (window_term current_time tau
          ((current_time - i64ofReal (tau * MS_PER_DAY * 10) : ℤ) : ℝ))).sum
        = ((r0 :: rest).map (window_term current_time tau
          ((current_time - i64ofReal (tau * MS_PER_DAY * 10) : ℤ) : ℝ))).sum := by
      rw [← happ, List.map_append, List.sum_append]
      have h0 : ((history.takeWhile
          (fun r => decide (r.timestamp < current_time - i64ofReal (tau * MS_PER_DAY * 10)))).map
            (window_term current_time tau
              ((current_time - i64ofReal (tau * MS_PER_DAY * 10) : ℤ) : ℝ))).sum = 0 := by
        apply List.sum_eq_zero
        intro x hx
        obtain ⟨r, hr, rfl⟩ := List.mem_map.mp hx
        exact hz r hr
      rw [h0, zero_add]
    -- term-by-term agreement on the relevant slice
    have hpt : ∀ r ∈ (r0 :: rest),
        window_term current_time tau
          ((current_time - i64ofReal (tau * MS_PER_DAY * 10) : ℤ) : ℝ) r
        = compute_partial_term (current_time + MAX_FUTURE_TOLERANCE) r0.timestamp
            (1 / (tau * MS_PER_DAY)) r
          * Real.exp (-((current_time - r0.timestamp : ℤ) : ℝ) * (1 / (tau * MS_PER_DAY))) := by
      intro r hr
      have hlbr := hlb r hr
      have hr0lb := hlb r0 (List.mem_cons_self r0 rest)
      have hminr := hmin r hr
      unfold window_term compute_partial_term
      by_cases hfut : current_time + MAX_FUTURE_TOLERANCE < r.timestamp
      · rw [if_neg, if_pos hfut, zero_mul]
        rintro ⟨-, hc2⟩
        exact absurd hc2 (not_le.mpr hfut)
      · push_neg at hfut
        rw [if_pos ⟨Int.cast_le.mpr hlbr, hfut⟩, if_neg (not_lt.mpr hfut)]
        have hsat : i64SatSub r.timestamp r0.timestamp = r.timestamp - r0.timestamp := by
          apply i64SatSub_eq
          · unfold I64_MIN
            omega
          · unfold MAX_FUTURE_TOLERANCE at hfut
            unfold I64_MAX at hflrM ⊢
            omega
        rw [hsat, mul_assoc, ← Real.exp_add]
        congr 1
        push_cast
        field_simp
    have hsum2 : ((r0 :: rest).map (window_term current_time tau
          ((current_time - i64ofReal (tau * MS_PER_DAY * 10) : ℤ) : ℝ))).sum
        = ((r0 :: rest).map (compute_partial_term (current_time + MAX_FUTURE_TOLERANCE)
            r0.timestamp (1 / (tau * MS_PER_DAY)))).sum
          * Real.exp (-((current_time - r0.timestamp : ℤ) : ℝ) * (1 / (tau * MS_PER_DAY))) := by
      rw [← List.sum_map_mul_right]
      congr 1
      exact List.map_congr_left hpt
    rw [hsum1, hsum2]
    ring

/-- C1 witness: the window equation applied to a one-record window. -/
theorem C1_volume_window_witness :
    TimeSorted [(⟨0, 1000000⟩ : HistoryRecord)]
    ∧ (0 : ℝ) < 1
    ∧ (1 : ℝ) * MS_PER_DAY * 10 + 60000 ≤ ((I64_MAX : ℤ) : ℝ)
    ∧ calculate_volume_in_memory [⟨0, 1000000⟩] 0 1
        = volume_window_sum [⟨0, 1000000⟩] 0 1
            ((0 - i64ofReal (1 * MS_PER_DAY * 10) : ℤ) : ℝ) :=
  ⟨by simp [TimeSorted], by norm_num,
    by unfold MS_PER_DAY I64_MAX; push_cast; norm_num,
    C1_volume_window [⟨0, 1000000⟩] 0 1 (by simp [TimeSorted]) (by norm_num)
      (by unfold MS_PER_DAY I64_MAX; push_cast; norm_num)⟩

/-- C1 counterexample: the claim's tau-day window disagrees with the code.
One record of 1.0 unit at time 0 queried at `now` = 2 days with `tau` = 1:
the record is outside the claimed tau-day lookback window, so the claimed
sum is 0, but the code keeps a 10-tau-day window and returns `exp(-2) ≠ 0`. -/
theorem C1_counterexample :
    calculate_volume_in_memory [⟨0, 1000000⟩] 172800000 1
      ≠ spec_volume_tau_days [⟨0, 1000000⟩] 172800000 1 := by
  have hI : i64ofReal (1 * MS_PER_DAY * 10) = 864000000 := by
    unfold MS_PER_DAY
    rw [show (1 : ℝ) * 86400000 * 10 = ((864000000 : ℤ) : ℝ) by push_cast; norm_num]
    exact i64ofReal_intCast 864000000 (by unfold I64_MIN; norm_num)
      (by unfold I64_MAX; norm_num)
  have hsat : i64SatSub 0 0 = 0 := by
    unfold i64SatSub I64_MIN I64_MAX
    decide
  have hL : calculate_volume_in_memory [⟨0, 1000000⟩] 172800000 1 = Real.exp (-2) := by
    simp only [calculate_volume_in_memory, hI]
    rw [if_neg (by norm_num)]
    rw [show List.dropWhile
        (fun r : HistoryRecord => decide (r.timestamp < 172800000 - 864000000))
        [⟨0, 1000000⟩] = [⟨0, 1000000⟩] by
      rw [List.dropWhile_cons]
      norm_num]
    rw [if_neg (by simp)]
    simp only [List.headI, List.map, List.sum_cons, List.sum_nil, compute_partial_term]
    rw [if_neg (by unfold MAX_FUTURE_TOLERANCE; norm_num)]
    rw [hsat]
    unfold MICROS_SCALE MS_PER_DAY
    push_cast
    rw [show ((0 : ℝ)) * (1 / (1 * 86400000)) = 0 by ring, Real.exp_zero]
    rw [show (-172800000 : ℝ) * (1 / (1 * 86400000)) = -2 by norm_num]
    norm_num
  have hR : spec_volume_tau_days [⟨0, 1000000⟩] 172800000 1 = 0 := by
    simp only [spec_volume_tau_days, volume_window_sum, window_term,
      List.map, List.sum_cons, List.sum_nil]
    rw [if_neg]
    · unfold MICROS_SCALE; norm_num
    · unfold MS_PER_DAY
      rintro ⟨hc1, -⟩
      push_cast at hc1
      norm_num at hc1
  rw [hL, hR]
  exact Real.exp_ne_zero _

end EcoBridge
